import Mathlib

/-!
Verification development for the IATI graph ETL pipeline (PostgreSQL to Neo4j).

The Python loaders under graph/ stream rows from relational link and entity
tables and merge them into Neo4j nodes and relationships via parameterised
Cypher batch queries.  This file gives a shallow embedding of the loader
logic: node identities are modelled as an inductive type, the graph content
relevant to endpoint resolution as lists of identifiers per label, the Cypher
OPTIONAL MATCH / COALESCE resolution pattern as total Lean functions, the
Cypher MERGE semantics (under the uniqueness constraints the node loaders
declare) as keyed association-list upserts, and each loader driver loop as a
structurally recursive function over the sequence of cursor fetch results.
-/

namespace IatiGraph

/-- Identity of a graph node: one of the four node variants used by the edge
loaders (published/phantom organisation, published/phantom activity), each
identified by the value of its identifying property. -/
inductive GNode where
  | pubOrg (id : String)
  | phanOrg (id : String)
  | pubAct (id : String)
  | phanAct (id : String)
deriving DecidableEq, Repr

/-- The graph content relevant to endpoint resolution: the set of identifier
values present on each of the four node labels
(PublishedOrganisation.organisationidentifier, PhantomOrganisation.reference,
PublishedActivity.iatiidentifier, PhantomActivity.phantom_activity_identifier).
Under the uniqueness constraints created by the node loaders, an identifier
matches at most one node per label, so list membership captures the
OPTIONAL MATCH lookups. -/
structure Graph where
  pubOrgs : List String
  phanOrgs : List String
  pubActs : List String
  phanActs : List String
deriving Repr

/-- Embeds the two-step lookup used by every edge-loader Cypher query, for one
label family, e.g. from load_participation_edges.py:
OPTIONAL MATCH (org) WHERE org.organisationidentifier = row.organisation_id,
then OPTIONAL MATCH (phantomOrg) WHERE org IS NULL AND
phantomOrg.reference = row.organisation_id, then
COALESCE(org, phantomOrg). -/
def resolveFamily (pub phan : List String) (mkPub mkPhan : String → GNode)
    (id : String) : Option GNode :=
  let pubMatch : Option GNode := if pub.contains id then some (mkPub id) else none
  let phanMatch : Option GNode :=
    if pubMatch.isNone && phan.contains id then some (mkPhan id) else none
  match pubMatch with
  | some n => some n
  | none => phanMatch

/-- Resolution within the organisation label family (published label
PublishedOrganisation, phantom label PhantomOrganisation). -/
def resolveOrgFamily (g : Graph) (id : String) : Option GNode :=
  resolveFamily g.pubOrgs g.phanOrgs GNode.pubOrg GNode.phanOrg id

/-- Resolution within the activity label family (published label
PublishedActivity, phantom label PhantomActivity). -/
def resolveActFamily (g : Graph) (id : String) : Option GNode :=
  resolveFamily g.pubActs g.phanActs GNode.pubAct GNode.phanAct id

/-- COALESCE on two optional node matches: first non-null wins. -/
def coalesce2 (a b : Option GNode) : Option GNode :=
  match a with
  | some n => some n
  | none => b

/-- Embeds the polymorphic endpoint resolution of load_financial_edges.py:
four OPTIONAL MATCH clauses guarded by the row node-type discriminator
(ORGANISATION or ACTIVITY), with each phantom lookup additionally guarded by
the corresponding published match being null, combined with
COALESCE(pubOrg, phanOrg, pubAct, phanAct). -/
def resolveTyped (g : Graph) (ty id : String) : Option GNode :=
  let pubOrg : Option GNode :=
    if ty == "ORGANISATION" && g.pubOrgs.contains id then some (GNode.pubOrg id) else none
  let phanOrg : Option GNode :=
    if ty == "ORGANISATION" && pubOrg.isNone && g.phanOrgs.contains id then
      some (GNode.phanOrg id) else none
  let pubAct : Option GNode :=
    if ty == "ACTIVITY" && g.pubActs.contains id then some (GNode.pubAct id) else none
  let phanAct : Option GNode :=
    if ty == "ACTIVITY" && pubAct.isNone && g.phanActs.contains id then
      some (GNode.phanAct id) else none
  coalesce2 pubOrg (coalesce2 phanOrg (coalesce2 pubAct phanAct))

/-! ## Cypher MERGE semantics

The graph store keeps at most one element per merge key (for nodes, the
label plus identifying property; for relationships, the endpoint pair plus
relationship type plus any property inside the MERGE pattern).  A MERGE
either matches the existing element and runs ON MATCH SET, or creates a new
one and runs ON CREATE SET; every loader sets the same properties in both
branches, so a merge is an upsert on a keyed association list. -/

/-- True when the store already holds an element with merge key k. -/
def hasKeyB {K V : Type} [DecidableEq K] (xs : List (K × V)) (k : K) : Bool :=
  xs.any fun p => decide (p.1 = k)

/-- One Cypher MERGE with identical ON CREATE SET and ON MATCH SET clauses:
match on the merge key and overwrite the properties, else append a new
element carrying them. -/
def mergeBy {K V : Type} [DecidableEq K] (xs : List (K × V)) (k : K) (v : V) :
    List (K × V) :=
  if hasKeyB xs k then
    xs.map fun p => if p.1 = k then (p.1, v) else p
  else
    xs ++ [(k, v)]

/-- One batch submitted through UNWIND: each row either yields a merge key
and property payload (endpoints resolved) or is skipped, in row order. -/
def procKeyed {R K V : Type} [DecidableEq K] (key : R → Option (K × V))
    (xs : List (K × V)) (rows : List R) : List (K × V) :=
  rows.foldl
    (fun acc r =>
      match key r with
      | some kv => mergeBy acc kv.1 kv.2
      | none => acc)
    xs

/-! ## Loader row types and sanitisation -/

/-- One row of iati_graph.participation_links as fetched by
load_participation_edges.py (all columns nullable). -/
structure PartRow where
  organisation_id : Option String
  activity_id : Option String
  role_code : Option String
  role_name : Option String
deriving DecidableEq, Repr

/-- A participation row after the null-identifier check: both endpoint
identifiers are definite strings, property columns stay as fetched. -/
structure SanPartRow where
  organisation_id : String
  activity_id : String
  role_code : Option String
  role_name : Option String
deriving DecidableEq, Repr

/-- How load_participation_edges.py renders an identifier in a NULL_ID detail
log line: row_dict.get returns the stored value, so a null column prints as
the Python text for the null value. -/
def dispPy : Option String → String
  | none => "None"
  | some s => s

/-- The per-row null check and batch assembly of load_participation_edges.py
(lines 350 to 370): a row with a null organisation_id or activity_id is
dropped and a NULL_ID detail line recorded; every other row is sanitised and
appended to the batch submitted to Neo4j.  Only nullness is tested
(`row_dict.get(...) is None`); empty strings pass through. -/
def partSanitise : List PartRow → List SanPartRow × List (String × String × String)
  | [] => ([], [])
  | r :: rs =>
    let rest := partSanitise rs
    match r.organisation_id, r.activity_id with
    | some o, some a =>
      (⟨o, a, r.role_code, r.role_name⟩ :: rest.1, rest.2)
    | _, _ =>
      (rest.1, (dispPy r.organisation_id, dispPy r.activity_id, "NULL_ID") :: rest.2)

/-- One row of iati_graph.financial_links as fetched by
load_financial_edges.py. -/
structure FinRow where
  source_node_id : Option String
  target_node_id : Option String
  source_node_type : Option String
  target_node_type : Option String
  transactiontype_code : Option String
  transaction_type_name : Option String
  currency : Option String
  total_value_usd : Option String
deriving DecidableEq, Repr

/-- A financial row after sanitisation: endpoint identifiers and type
discriminators are non-empty strings; null property columns were replaced by
the empty string. -/
structure SanFinRow where
  source_node_id : String
  target_node_id : String
  source_node_type : String
  target_node_type : String
  transactiontype_code : String
  transaction_type_name : String
  currency : String
  total_value_usd : String
deriving DecidableEq, Repr

/-- Python truthiness of an optional string column: false for null and for
the empty string. -/
def truthy : Option String → Bool
  | none => false
  | some s => !(s == "")

/-- How load_financial_edges.py renders an identifier or type in a skip
detail line: `value or NULL` replaces both null and empty values. -/
def dispFin (v : Option String) : String :=
  match v with
  | none => "NULL"
  | some s => if s == "" then "NULL" else s

/-- The per-row check and batch assembly of load_financial_edges.py (lines
319 to 348): a row where any of the two identifiers or two type
discriminators is null or empty is dropped with a NULL_ID_OR_TYPE detail
line; other rows are sanitised (null property columns become empty strings)
and appended to the batch. -/
def finSanitise :
    List FinRow → List SanFinRow × List (String × String × String × String × String)
  | [] => ([], [])
  | r :: rs =>
    let rest := finSanitise rs
    if truthy r.source_node_id && truthy r.target_node_id &&
        truthy r.source_node_type && truthy r.target_node_type then
      (⟨r.source_node_id.getD "", r.target_node_id.getD "",
        r.source_node_type.getD "", r.target_node_type.getD "",
        r.transactiontype_code.getD "", r.transaction_type_name.getD "",
        r.currency.getD "", r.total_value_usd.getD ""⟩ :: rest.1, rest.2)
    else
      (rest.1,
        (dispFin r.source_node_id, dispFin r.target_node_id,
          dispFin r.source_node_type, dispFin r.target_node_type,
          "NULL_ID_OR_TYPE") :: rest.2)

/-! ## Relationship merge keys

load_participation_edges.py merges
MERGE (sourceNode)-[r:PARTICIPATES_IN]->(targetNode): uniqueness is the
endpoint pair (the relationship type is fixed per loader, so it is implicit
in the state).  load_financial_edges.py merges
MERGE (sourceNode)-[r:FINANCIAL_TRANSACTION
\x7b transactiontype_code: row.transactiontype_code \x7d]->(targetNode):
the transaction-type code is part of the merge pattern, hence of the key. -/

/-- Merge key of a PARTICIPATES_IN relationship: source and target node. -/
abbrev PartKey := GNode × GNode

/-- Properties set on a PARTICIPATES_IN relationship. -/
abbrev PartVal := Option String × Option String

/-- Merge key of a FINANCIAL_TRANSACTION relationship: source node, target
node and transaction-type code. -/
abbrev FinKey := GNode × GNode × String

/-- Properties set on a FINANCIAL_TRANSACTION relationship. -/
abbrev FinVal := String × String × String × String

/-- Per-row behaviour of the participation Cypher batch: resolve both
endpoints; when both resolve, the MERGE key is the endpoint pair and the SET
payload is the role columns; otherwise the row merges nothing. -/
def partKeyVal (g : Graph) (r : SanPartRow) : Option (PartKey × PartVal) :=
  match resolveOrgFamily g r.organisation_id, resolveActFamily g r.activity_id with
  | some s, some t => some ((s, t), (r.role_code, r.role_name))
  | _, _ => none

/-- The participation Cypher batch applied to a relationship store. -/
def procPart (g : Graph) (rels : List (PartKey × PartVal))
    (rows : List SanPartRow) : List (PartKey × PartVal) :=
  procKeyed (partKeyVal g) rels rows

/-- Per-row behaviour of the financial Cypher batch: resolve both endpoints
through the type-dispatched resolution; when both resolve, the MERGE key is
(source, target, transactiontype_code) and the SET payload the four property
columns. -/
def finKeyVal (g : Graph) (r : SanFinRow) : Option (FinKey × FinVal) :=
  match resolveTyped g r.source_node_type r.source_node_id,
      resolveTyped g r.target_node_type r.target_node_id with
  | some s, some t =>
    some ((s, t, r.transactiontype_code),
      (r.transactiontype_code, r.transaction_type_name, r.currency,
        r.total_value_usd))
  | _, _ => none

/-- The financial Cypher batch applied to a relationship store. -/
def procFin (g : Graph) (rels : List (FinKey × FinVal))
    (rows : List SanFinRow) : List (FinKey × FinVal) :=
  procKeyed (finKeyVal g) rels rows

/-- One row of iati_graph.published_activities as fetched by
load_published_activities.py. -/
structure PubActRow where
  iatiidentifier : Option String
  title_narrative : Option String
deriving DecidableEq, Repr

/-- Per-row behaviour of the published-activity node batch: rows with a null
iatiidentifier are filtered out before submission; the MERGE key is the
identifier and the payload the title column. -/
def pubActKeyVal (r : PubActRow) : Option (String × Option String) :=
  match r.iatiidentifier with
  | some i => some (i, r.title_narrative)
  | none => none

/-- The published-activity node batch applied to a node store. -/
def procPubAct (ns : List (String × Option String)) (rows : List PubActRow) :
    List (String × Option String) :=
  procKeyed pubActKeyVal ns rows

/-! ## Loader run loops and counters -/

/-- Aggregate counters of one edge-loader invocation, plus whether the load
function reported success. -/
structure RunCounters where
  success : Bool
  nulls : Nat
  missing : Nat
  merges : Nat
deriving DecidableEq, Repr

/-- One cursor fetch as seen by load_participation_edges.py: either a chunk
of rows together with whether the Neo4j batch write succeeds, or a
PostgreSQL fetch error. -/
inductive PFetch where
  | chunk (rows : List PartRow) (neoOk : Bool)
  | fetchErr
deriving Repr

/-- A sanitised participation row whose merge is skipped by the Cypher query
because an endpoint fails to resolve. -/
def unresolvedPart (g : Graph) (r : SanPartRow) : Bool :=
  (resolveOrgFamily g r.organisation_id).isNone ||
    (resolveActFamily g r.activity_id).isNone

/-- The batch loop of load_participation_edges.py (lines 337 to 420): an
empty fetch ends the loop; a fetch error breaks out of the loop and the
function still returns success; otherwise the chunk is sanitised (null rows
counted and logged first), an all-null chunk is skipped, and the Neo4j batch
either yields the skipped-row records (missing counted, the remainder counted
as successful merges) or raises, in which case the function returns failure
with the counters accumulated so far. -/
def partGo (g : Graph) : Nat → Nat → Nat → List PFetch → RunCounters
  | n, m, k, [] => ⟨true, n, m, k⟩
  | n, m, k, PFetch.fetchErr :: _ => ⟨true, n, m, k⟩
  | n, m, k, PFetch.chunk rows ok :: rest =>
    let s := partSanitise rows
    let n2 := n + s.2.length
    if s.1.isEmpty then partGo g n2 m k rest
    else if ok then
      let sk := (s.1.filter (unresolvedPart g)).length
      partGo g n2 (m + sk) (k + (s.1.length - sk)) rest
    else ⟨false, n2, m, k⟩

/-- A full participation-loader streaming phase from zeroed counters. -/
def partRun (g : Graph) (events : List PFetch) : RunCounters :=
  partGo g 0 0 0 events

/-- One row of iati_graph.funds_links as fetched by load_funds_edges.py. -/
structure FundsRow where
  source_node_id : Option String
  target_node_id : Option String
  source_node_type : Option String
  target_node_type : Option String
  currency : Option String
  total_value_usd : Option String
deriving DecidableEq, Repr

/-- A funds row after sanitisation. -/
structure SanFundsRow where
  source_node_id : String
  target_node_id : String
  source_node_type : String
  target_node_type : String
  currency : String
  total_value_usd : String
deriving DecidableEq, Repr

/-- The per-row check and batch assembly of load_funds_edges.py (lines 299
to 328), identical in shape to the financial loader: a row with any of the
four endpoint columns null or empty is dropped with a NULL_ID_OR_TYPE
line. -/
def fundsSanitise :
    List FundsRow →
      List SanFundsRow × List (String × String × String × String × String)
  | [] => ([], [])
  | r :: rs =>
    let rest := fundsSanitise rs
    if truthy r.source_node_id && truthy r.target_node_id &&
        truthy r.source_node_type && truthy r.target_node_type then
      (⟨r.source_node_id.getD "", r.target_node_id.getD "",
        r.source_node_type.getD "", r.target_node_type.getD "",
        r.currency.getD "", r.total_value_usd.getD ""⟩ :: rest.1, rest.2)
    else
      (rest.1,
        (dispFin r.source_node_id, dispFin r.target_node_id,
          dispFin r.source_node_type, dispFin r.target_node_type,
          "NULL_ID_OR_TYPE") :: rest.2)

/-- A sanitised funds row whose merge is skipped because an endpoint fails
to resolve: the funds Cypher query resolves both endpoints in the activity
family only. -/
def unresolvedFunds (g : Graph) (r : SanFundsRow) : Bool :=
  (resolveActFamily g r.source_node_id).isNone ||
    (resolveActFamily g r.target_node_id).isNone

/-- One event of the load_funds_edges.py batch loop: a fetched chunk with
the outcome of its Neo4j write, a KeyboardInterrupt raised during batch
processing, or any other exception raised during batch processing. -/
inductive FFetch where
  | chunk (rows : List FundsRow) (neoOk : Bool)
  | interrupt
  | exc
deriving Repr

/-- The batch loop of load_funds_edges.py (lines 284 to 417): a Neo4j batch
error is printed and the loop continues with the next batch, with the failed
batch counted neither as skipped nor as merged; a KeyboardInterrupt or any
other exception during batch processing is caught, the loop stops, and the
function falls through to the summary and returns success. -/
def fundsGo (g : Graph) : Nat → Nat → Nat → List FFetch → RunCounters
  | n, m, k, [] => ⟨true, n, m, k⟩
  | n, m, k, FFetch.interrupt :: _ => ⟨true, n, m, k⟩
  | n, m, k, FFetch.exc :: _ => ⟨true, n, m, k⟩
  | n, m, k, FFetch.chunk rows ok :: rest =>
    let s := fundsSanitise rows
    let n2 := n + s.2.length
    if s.1.isEmpty then fundsGo g n2 m k rest
    else if ok then
      let sk := (s.1.filter (unresolvedFunds g)).length
      fundsGo g n2 (m + sk) (k + (s.1.length - sk)) rest
    else fundsGo g n2 m k rest

/-- A full funds-loader streaming phase from zeroed counters. -/
def fundsRun (g : Graph) (events : List FFetch) : RunCounters :=
  fundsGo g 0 0 0 events

/-! ## Process exit codes -/

/-- Outcome of the try block in a loader main function: the load function
returned with a success flag, a KeyboardInterrupt propagated out of it, or
another exception propagated out of it. -/
inductive MainOutcome where
  | completed (success : Bool)
  | interrupted
  | raised
deriving DecidableEq, Repr

/-- The exit code of load_participation_edges.py main (lines 507 to 534):
sys.exit(1) unless the load completed and reported success; a
KeyboardInterrupt or any exception sets success to False.
load_financial_edges.py main is identical. -/
def participationExitCode : MainOutcome → Nat
  | MainOutcome.completed true => 0
  | MainOutcome.completed false => 1
  | MainOutcome.interrupted => 1
  | MainOutcome.raised => 1

/-- The exit code of load_funds_edges.py main (lines 420 to 454): returns 0
when load_funds_edges reported success and 1 otherwise, and the return value
is passed to sys.exit. -/
def fundsExitCode (success : Bool) : Nat :=
  if success then 0 else 1

/-! ## Skip-reason classification -/

/-- The skip-record classification of load_participation_edges.py (lines
396 to 411): the two missing-flags are read from the Neo4j record with a
default of True when absent, then an if chain picks the reason string. -/
def classifyPartReason (sourceMissing targetMissing : Option Bool) : String :=
  let s := sourceMissing.getD true
  let t := targetMissing.getD true
  if s && t then "BOTH_MISSING"
  else if s then "SOURCE_ORG_MISSING"
  else if t then "TARGET_ACT_MISSING"
  else "UNKNOWN"

/-- The skip-record classification of load_financial_edges.py (lines 370 to
386): same defaults and chain, with the node types interpolated into the
side-specific reason strings. -/
def classifyFinReason (sType tType : String)
    (sourceMissing targetMissing : Option Bool) : String :=
  let s := sourceMissing.getD true
  let t := targetMissing.getD true
  if s && t then "BOTH_NODES_MISSING"
  else if s then "SOURCE_" ++ sType ++ "_MISSING"
  else if t then "TARGET_" ++ tType ++ "_MISSING"
  else "UNKNOWN"

/-! ## Phantom-activity node loader -/

/-- One row of iati_graph.phantom_activities as fetched by
load_phantom_activities.py. -/
structure PhRow where
  phantom_activity_identifier : Option String
  source_column : Option String
  source_activity_id : Option String
deriving DecidableEq, Repr

/-- Properties written onto a PhantomActivity node by one merge. -/
structure PhVal where
  source_columns : List String
  source_activity_ids : List String
  title : String
  reference_count : Nat
deriving DecidableEq, Repr

/-- The grouped_activities accumulator: insertion-ordered association list
from phantom identifier to its collected source columns and source activity
identifiers (Python defaultdict preserves insertion order). -/
abbrev PhGroup := List (String × List String × List String)

/-- Access-and-update of one defaultdict entry: an absent entry is created
from the empty pair, a present entry is updated in place. -/
def groupUpdate (grouped : PhGroup) (id : String)
    (f : List String × List String → List String × List String) : PhGroup :=
  if grouped.any (fun p => decide (p.1 = id)) then
    grouped.map fun p => if p.1 = id then (p.1, f p.2) else p
  else grouped ++ [(id, f ([], []))]

/-- Processing of one fetched row by the grouping loop (lines 181 to 195 of
load_phantom_activities.py): a null identifier only increments the null-skip
counter; otherwise a truthy source_column is appended to the entry if not
already present, then a truthy source_activity_id likewise.  The defaultdict
entry is only touched when the corresponding column is truthy, mirroring the
short-circuit conditions in the source. -/
def phAddRow (grouped : PhGroup) (r : PhRow) : PhGroup × Bool :=
  match r.phantom_activity_identifier with
  | none => (grouped, true)
  | some id =>
    let g1 :=
      match r.source_column with
      | some c =>
        if c == "" then grouped
        else groupUpdate grouped id fun cv =>
          (if cv.1.contains c then cv.1 else cv.1 ++ [c], cv.2)
      | none => grouped
    let g2 :=
      match r.source_activity_id with
      | some a =>
        if a == "" then g1
        else groupUpdate g1 id fun cv =>
          (cv.1, if cv.2.contains a then cv.2 else cv.2 ++ [a])
      | none => g1
    (g2, false)

/-- Folding one fetched chunk into the grouping state and null-skip count. -/
def phChunkFold (grouped : PhGroup) (skips : Nat) (rows : List PhRow) :
    PhGroup × Nat :=
  rows.foldl
    (fun acc r =>
      let res := phAddRow acc.1 r
      (res.1, if res.2 then acc.2 + 1 else acc.2))
    (grouped, skips)

/-- Conversion of the grouped entries into the Cypher batch list (lines 201
to 209): each entry carries its collected lists, the derived title and
reference_count equal to the number of collected source activity ids. -/
def flushItems (grouped : PhGroup) : List (String × PhVal) :=
  grouped.map fun p =>
    (p.1, ⟨p.2.1, p.2.2, "Phantom Activity: " ++ p.1, p.2.2.length⟩)

/-- The phantom-activity Cypher batch (lines 132 to 145): MERGE on
phantom_activity_identifier, with ON CREATE SET and ON MATCH SET writing the
same property payload, i.e. a keyed upsert per batch item. -/
def phMergeBatch (graph : List (String × PhVal)) (items : List (String × PhVal)) :
    List (String × PhVal) :=
  items.foldl (fun acc it => mergeBy acc it.1 it.2) graph

/-- Final state of one load_phantom_activity_nodes run: the node store, the
grouped entries left unflushed when the cursor was exhausted, the flushed
batches in order, the returned success flag and the null-skip count. -/
structure PhResult where
  graph : List (String × PhVal)
  residual : PhGroup
  flushes : List (List (String × PhVal))
  success : Bool
  skippedNull : Nat
deriving DecidableEq, Repr

/-- The batch loop of load_phantom_activity_nodes (lines 166 to 251): an
empty fetch breaks out of the loop before the flush condition is evaluated,
so the trailing grouped entries are never flushed; after a non-empty fetch
the grouped entries are flushed to Neo4j only when at least batch_size
distinct identifiers have accumulated, after which the grouping state is
cleared; the function returns True when the loop ends. -/
def phantomGo (bs : Nat) :
    List (List PhRow) → PhGroup → List (String × PhVal) → Nat → PhResult
  | [], grouped, graph, skips => ⟨graph, grouped, [], true, skips⟩
  | chunk :: rest, grouped, graph, skips =>
    if chunk.isEmpty then ⟨graph, grouped, [], true, skips⟩
    else
      let gs := phChunkFold grouped skips chunk
      if bs ≤ gs.1.length then
        let items := flushItems gs.1
        let r := phantomGo bs rest [] (phMergeBatch graph items) gs.2
        ⟨r.graph, r.residual, items :: r.flushes, r.success, r.skippedNull⟩
      else phantomGo bs rest gs.1 graph gs.2

/-- A full phantom-activity loader run over the successive cursor fetches,
starting from an existing node store. -/
def phantomRun (bs : Nat) (g0 : List (String × PhVal))
    (chunks : List (List PhRow)) : PhResult :=
  phantomGo bs chunks [] g0 0

/-! ## Run orchestrator -/

/-- The node-loading scripts of load_graph_sequential.py, in listed order. -/
def nodeScripts : List String :=
  ["load_published_activities.py", "load_published_organisations.py",
    "load_phantom_activities.py", "load_phantom_organisations.py"]

/-- The edge-loading scripts of load_graph_sequential.py, in listed order. -/
def edgeScripts : List String :=
  ["load_publication_edges.py", "load_hierarchy_edges.py",
    "load_participation_edges.py", "load_funds_edges.py"]

/-- The full script sequence of load_graph_sequential.py. -/
def seqScripts : List String := nodeScripts ++ edgeScripts

/-- The orchestrator loop of load_graph_sequential.py (lines 25 to 65):
scripts run in order via subprocess.run with check=True; the environment
decides whether a script succeeds; the first failure raises and the loop
exits immediately.  Returns the scripts that completed successfully, and
the failing script if any. -/
def runSeq (env : String → Bool) : List String → List String × Option String
  | [] => ([], none)
  | s :: rest =>
    if env s then
      let r := runSeq env rest
      (s :: r.1, r.2)
    else ([], some s)

/-- The orchestrator process exit code: sys.exit(1) inside the except
handler when any script fails, implicit exit 0 after the loop completes. -/
def seqExit (env : String → Bool) : Nat :=
  match (runSeq env seqScripts).2 with
  | some _ => 1
  | none => 0

/-! ## Theorems -/

theorem resolveFamily_pub (pub phan : List String) (mkPub mkPhan : String → GNode)
    (id : String) (h : id ∈ pub) :
    resolveFamily pub phan mkPub mkPhan id = some (mkPub id) := by
  simp [resolveFamily, h]

theorem resolveFamily_phan (pub phan : List String) (mkPub mkPhan : String → GNode)
    (id : String) (h : id ∉ pub) (h2 : id ∈ phan) :
    resolveFamily pub phan mkPub mkPhan id = some (mkPhan id) := by
  simp [resolveFamily, h, h2]

theorem resolveFamily_none (pub phan : List String) (mkPub mkPhan : String → GNode)
    (id : String) (h : id ∉ pub) (h2 : id ∉ phan) :
    resolveFamily pub phan mkPub mkPhan id = none := by
  simp [resolveFamily, h, h2]

theorem resolveTyped_org (g : Graph) (i : String) :
    resolveTyped g "ORGANISATION" i = resolveOrgFamily g i := by
  by_cases hp : i ∈ g.pubOrgs <;> by_cases hq : i ∈ g.phanOrgs <;>
    simp [resolveTyped, resolveOrgFamily, resolveFamily, coalesce2, hp, hq]

theorem resolveTyped_act (g : Graph) (i : String) :
    resolveTyped g "ACTIVITY" i = resolveActFamily g i := by
  by_cases hp : i ∈ g.pubActs <;> by_cases hq : i ∈ g.phanActs <;>
    simp [resolveTyped, resolveActFamily, resolveFamily, coalesce2, hp, hq]

/-- Claim C1: for every identifier an edge loader resolves, if the published
variant of the family carries that identifier, resolution binds to the
published node and never to the phantom one; the phantom variant is bound
exactly when the published lookup misses and the phantom lookup hits; an
identifier matching neither variant is unresolved.  Stated for both label
families; the financial loader resolution, dispatched on the node-type
discriminator, agrees with the per-family resolver on both discriminators. -/
theorem resolution_published_precedence (g : Graph) (id : String) :
    (id ∈ g.pubOrgs →
      resolveOrgFamily g id = some (GNode.pubOrg id)) ∧
    (resolveOrgFamily g id = some (GNode.phanOrg id) ↔
      id ∉ g.pubOrgs ∧ id ∈ g.phanOrgs) ∧
    (resolveOrgFamily g id = none ↔
      id ∉ g.pubOrgs ∧ id ∉ g.phanOrgs) ∧
    (id ∈ g.pubActs →
      resolveActFamily g id = some (GNode.pubAct id)) ∧
    (resolveActFamily g id = some (GNode.phanAct id) ↔
      id ∉ g.pubActs ∧ id ∈ g.phanActs) ∧
    (resolveActFamily g id = none ↔
      id ∉ g.pubActs ∧ id ∉ g.phanActs) ∧
    (resolveTyped g "ORGANISATION" id = resolveOrgFamily g id) ∧
    (resolveTyped g "ACTIVITY" id = resolveActFamily g id) := by
  refine ⟨?_, ?_, ?_, ?_, ?_, ?_, resolveTyped_org g id, resolveTyped_act g id⟩
  all_goals first
    | (by_cases hp : id ∈ g.pubOrgs <;> by_cases hq : id ∈ g.phanOrgs <;>
        simp [resolveOrgFamily, resolveFamily, hp, hq])
    | (by_cases hp : id ∈ g.pubActs <;> by_cases hq : id ∈ g.phanActs <;>
        simp [resolveActFamily, resolveFamily, hp, hq])

/-- Witness for C1 at concrete graphs: an identifier present on both the
published and the phantom organisation label resolves to the published node;
one present only on the phantom label resolves to the phantom node; one
present on neither is unresolved. -/
theorem resolution_published_precedence_witness :
    resolveOrgFamily ⟨["X"], ["X"], [], []⟩ "X" = some (GNode.pubOrg "X") ∧
    resolveOrgFamily ⟨[], ["X"], [], []⟩ "X" = some (GNode.phanOrg "X") ∧
    resolveOrgFamily ⟨[], [], [], []⟩ "X" = none := by
  refine ⟨(resolution_published_precedence ⟨["X"], ["X"], [], []⟩ "X").1 (by decide),
    (resolution_published_precedence ⟨[], ["X"], [], []⟩ "X").2.1.mpr (by decide),
    (resolution_published_precedence ⟨[], [], [], []⟩ "X").2.2.1.mpr (by decide)⟩

theorem hasKeyB_map_update {K V : Type} [DecidableEq K] (xs : List (K × V))
    (k k2 : K) (v : V) :
    hasKeyB (xs.map fun p => if p.1 = k then (p.1, v) else p) k2 =
      hasKeyB xs k2 := by
  induction xs with
  | nil => rfl
  | cons p ps ih =>
    simp only [List.map_cons, hasKeyB, List.any_cons]
    have hfst : (if p.1 = k then (p.1, v) else p).1 = p.1 := by
      by_cases hk : p.1 = k <;> simp [hk]
    rw [hfst]
    simp only [hasKeyB] at ih
    rw [ih]

theorem hasKeyB_mergeBy {K V : Type} [DecidableEq K] (xs : List (K × V))
    (k k2 : K) (v : V) :
    hasKeyB (mergeBy xs k v) k2 = (hasKeyB xs k2 || decide (k2 = k)) := by
  by_cases h : hasKeyB xs k = true
  · rw [mergeBy, if_pos h, hasKeyB_map_update]
    by_cases h2 : k2 = k
    · subst h2; simp [h]
    · simp [h2]
  · rw [mergeBy, if_neg h]
    by_cases h2 : k2 = k
    · subst h2; simp [hasKeyB, List.any_append]
    · have h3 : ¬k = k2 := fun hh => h2 hh.symm
      simp [hasKeyB, List.any_append, h2, h3]

theorem length_mergeBy_present {K V : Type} [DecidableEq K] (xs : List (K × V))
    (k : K) (v : V) (h : hasKeyB xs k = true) :
    (mergeBy xs k v).length = xs.length := by
  simp [mergeBy, h]

theorem length_mergeBy_absent {K V : Type} [DecidableEq K] (xs : List (K × V))
    (k : K) (v : V) (h : hasKeyB xs k = false) :
    (mergeBy xs k v).length = xs.length + 1 := by
  simp [mergeBy, h]

theorem hasKeyB_procKeyed_mono {R K V : Type} [DecidableEq K]
    (key : R → Option (K × V)) (rows : List R) (xs : List (K × V)) (k : K)
    (h : hasKeyB xs k = true) : hasKeyB (procKeyed key xs rows) k = true := by
  induction rows generalizing xs with
  | nil => exact h
  | cons r rs ih =>
    simp only [procKeyed, List.foldl_cons]
    cases hk : key r with
    | none => exact ih xs h
    | some kv =>
      apply ih
      rw [hasKeyB_mergeBy, h, Bool.true_or]

theorem hasKeyB_procKeyed_of_mem {R K V : Type} [DecidableEq K]
    (key : R → Option (K × V)) (rows : List R) (xs : List (K × V))
    (r : R) (hr : r ∈ rows) (kv : K × V) (hk : key r = some kv) :
    hasKeyB (procKeyed key xs rows) kv.1 = true := by
  induction rows generalizing xs with
  | nil => cases hr
  | cons a rs ih =>
    simp only [procKeyed, List.foldl_cons]
    rcases List.mem_cons.mp hr with h | h
    · subst h
      rw [hk]
      apply hasKeyB_procKeyed_mono
      rw [hasKeyB_mergeBy]
      simp
    · cases hka : key a with
      | none => exact ih _ h
      | some kv2 => exact ih _ h

theorem length_procKeyed_of_all_present {R K V : Type} [DecidableEq K]
    (key : R → Option (K × V)) (rows : List R) (xs : List (K × V))
    (h : ∀ r ∈ rows, ∀ kv : K × V, key r = some kv → hasKeyB xs kv.1 = true) :
    (procKeyed key xs rows).length = xs.length := by
  induction rows generalizing xs with
  | nil => rfl
  | cons a rs ih =>
    simp only [procKeyed, List.foldl_cons]
    cases hka : key a with
    | none =>
      exact ih xs fun r hr kv hkv => h r (List.mem_cons_of_mem a hr) kv hkv
    | some kv =>
      have hpres : hasKeyB xs kv.1 = true := h a (List.mem_cons_self a rs) kv hka
      have hlen := length_mergeBy_present xs kv.1 kv.2 hpres
      calc (procKeyed key (mergeBy xs kv.1 kv.2) rs).length
          = (mergeBy xs kv.1 kv.2).length := by
            apply ih
            intro r hr kv2 hkv2
            rw [hasKeyB_mergeBy, h r (List.mem_cons_of_mem a hr) kv2 hkv2,
              Bool.true_or]
        _ = xs.length := hlen

/-- Re-running an UNWIND batch of merges over the state it produced creates
nothing new: every merge key is already present, so only updates happen and
the element count is unchanged. -/
theorem length_procKeyed_twice {R K V : Type} [DecidableEq K]
    (key : R → Option (K × V)) (rows : List R) (xs : List (K × V)) :
    (procKeyed key (procKeyed key xs rows) rows).length =
      (procKeyed key xs rows).length := by
  apply length_procKeyed_of_all_present
  intro r hr kv hkv
  exact hasKeyB_procKeyed_of_mem key rows xs r hr kv hkv

/-- Claim C5: relationship merge uniqueness is keyed by (source, target,
type) for the participation loader and by (source, target, type,
transaction-type code) for the financial loader, with the code inside the
merge pattern itself: two financial rows with the same endpoints and
different codes create two relationships, rows identical on the full key
create exactly one, and the code in the key always equals the row column. -/
theorem merge_key_uniqueness :
    (∀ (rels : List (FinKey × FinVal)) (s t : GNode) (c1 c2 : String)
        (v1 v2 : FinVal),
      hasKeyB rels (s, t, c1) = false → hasKeyB rels (s, t, c2) = false →
      c1 ≠ c2 →
      (mergeBy (mergeBy rels (s, t, c1) v1) (s, t, c2) v2).length =
        rels.length + 2) ∧
    (∀ (rels : List (FinKey × FinVal)) (k : FinKey) (v1 v2 : FinVal),
      hasKeyB rels k = false →
      (mergeBy (mergeBy rels k v1) k v2).length = rels.length + 1) ∧
    (∀ (rels : List (PartKey × PartVal)) (k : PartKey) (v1 v2 : PartVal),
      hasKeyB rels k = false →
      (mergeBy (mergeBy rels k v1) k v2).length = rels.length + 1) ∧
    (∀ (g : Graph) (r : SanFinRow) (k : FinKey) (v : FinVal),
      finKeyVal g r = some (k, v) → k.2.2 = r.transactiontype_code) := by
  refine ⟨?_, ?_, ?_, ?_⟩
  · intro rels s t c1 c2 v1 v2 h1 h2 hne
    have hk2 : hasKeyB (mergeBy rels (s, t, c1) v1) (s, t, c2) = false := by
      rw [hasKeyB_mergeBy, h2]
      simp [Prod.ext_iff]
      exact fun h => hne h.symm
    rw [length_mergeBy_absent _ _ _ hk2, length_mergeBy_absent _ _ _ h1]
  · intro rels k v1 v2 h
    have hk2 : hasKeyB (mergeBy rels k v1) k = true := by
      rw [hasKeyB_mergeBy]
      simp
    rw [length_mergeBy_present _ _ _ hk2, length_mergeBy_absent _ _ _ h]
  · intro rels k v1 v2 h
    have hk2 : hasKeyB (mergeBy rels k v1) k = true := by
      rw [hasKeyB_mergeBy]
      simp
    rw [length_mergeBy_present _ _ _ hk2, length_mergeBy_absent _ _ _ h]
  · intro g r k v h
    cases h1 : resolveTyped g r.source_node_type r.source_node_id with
    | none => simp [finKeyVal, h1] at h
    | some s =>
      cases h2 : resolveTyped g r.target_node_type r.target_node_id with
      | none => simp [finKeyVal, h1, h2] at h
      | some t =>
        simp only [finKeyVal, h1, h2, Option.some.injEq, Prod.mk.injEq] at h
        rw [← h.1]

/-- Witness for C5: from an empty store, two financial rows with equal
endpoints and transaction-type codes 1 and 2 yield two relationships; two
rows identical on the full key yield one; on a concrete row the merge key
carries the row's code. -/
theorem merge_key_uniqueness_witness :
    (mergeBy (mergeBy ([] : List (FinKey × FinVal))
        (GNode.pubAct "a", GNode.pubOrg "b", "1") ("1", "n", "USD", "5"))
        (GNode.pubAct "a", GNode.pubOrg "b", "2") ("2", "n", "USD", "7")).length
      = 2 ∧
    (mergeBy (mergeBy ([] : List (FinKey × FinVal))
        (GNode.pubAct "a", GNode.pubOrg "b", "1") ("1", "n", "USD", "5"))
        (GNode.pubAct "a", GNode.pubOrg "b", "1") ("1", "n", "USD", "7")).length
      = 1 ∧
    (mergeBy (mergeBy ([] : List (PartKey × PartVal))
        (GNode.pubOrg "o", GNode.pubAct "a") (some "1", some "Funder"))
        (GNode.pubOrg "o", GNode.pubAct "a") (some "2", some "Implementer")).length
      = 1 := by
  refine ⟨merge_key_uniqueness.1 [] (GNode.pubAct "a") (GNode.pubOrg "b")
      "1" "2" ("1", "n", "USD", "5") ("2", "n", "USD", "7")
      (by decide) (by decide) (by decide),
    merge_key_uniqueness.2.1 [] (GNode.pubAct "a", GNode.pubOrg "b", "1")
      ("1", "n", "USD", "5") ("1", "n", "USD", "7") (by decide),
    merge_key_uniqueness.2.2.1 [] (GNode.pubOrg "o", GNode.pubAct "a")
      (some "1", some "Funder") (some "2", some "Implementer") (by decide)⟩

/-- Claim C6: running the same loader twice against unchanged source data
leaves the element count unchanged after the second run, because every merge
of the second run finds its key already present: stated for the
participation edge batch, the financial edge batch and the published
activity node batch, together with the key-presence fact for the second
run. -/
theorem loader_rerun_idempotent :
    (∀ (g : Graph) (rels : List (PartKey × PartVal)) (rows : List SanPartRow),
      (procPart g (procPart g rels rows) rows).length =
        (procPart g rels rows).length) ∧
    (∀ (g : Graph) (rels : List (FinKey × FinVal)) (rows : List SanFinRow),
      (procFin g (procFin g rels rows) rows).length =
        (procFin g rels rows).length) ∧
    (∀ (ns : List (String × Option String)) (rows : List PubActRow),
      (procPubAct (procPubAct ns rows) rows).length =
        (procPubAct ns rows).length) ∧
    (∀ (g : Graph) (rels : List (PartKey × PartVal)) (rows : List SanPartRow),
      ∀ r ∈ rows, ∀ kv : PartKey × PartVal, partKeyVal g r = some kv →
        hasKeyB (procPart g rels rows) kv.1 = true) := by
  refine ⟨fun g rels rows => length_procKeyed_twice _ rows rels,
    fun g rels rows => length_procKeyed_twice _ rows rels,
    fun ns rows => length_procKeyed_twice _ rows ns,
    fun g rels rows r hr kv hkv =>
      hasKeyB_procKeyed_of_mem _ rows rels r hr kv hkv⟩

/-- Witness for C6 key presence: after one participation run over a single
resolvable row, the key of that row is present in the store. -/
theorem loader_rerun_idempotent_witness :
    hasKeyB
      (procPart ⟨["o"], [], ["a"], []⟩ []
        [⟨"o", "a", some "1", some "Funder"⟩])
      (GNode.pubOrg "o", GNode.pubAct "a") = true := by
  have h := loader_rerun_idempotent.2.2.2 ⟨["o"], [], ["a"], []⟩ []
    [⟨"o", "a", some "1", some "Funder"⟩]
    ⟨"o", "a", some "1", some "Funder"⟩ (by decide)
    ((GNode.pubOrg "o", GNode.pubAct "a"), (some "1", some "Funder"))
    (by decide)
  exact h

theorem partSanitise_length (rows : List PartRow) :
    (partSanitise rows).1.length + (partSanitise rows).2.length = rows.length := by
  induction rows with
  | nil => rfl
  | cons r rs ih =>
    cases ho : r.organisation_id <;> cases ha : r.activity_id <;>
      simp [partSanitise, ho, ha] <;> omega

theorem fundsSanitise_length (rows : List FundsRow) :
    (fundsSanitise rows).1.length + (fundsSanitise rows).2.length = rows.length := by
  induction rows with
  | nil => rfl
  | cons r rs ih =>
    by_cases h : (truthy r.source_node_id && truthy r.target_node_id &&
        truthy r.source_node_type && truthy r.target_node_type) = true <;>
      simp [fundsSanitise, h] <;> omega

theorem partGo_conservation (g : Graph) (chunks : List (List PartRow)) :
    ∀ n m k : Nat,
      (partGo g n m k (chunks.map fun c => PFetch.chunk c true)).success = true ∧
      (partGo g n m k (chunks.map fun c => PFetch.chunk c true)).nulls +
          (partGo g n m k (chunks.map fun c => PFetch.chunk c true)).missing +
          (partGo g n m k (chunks.map fun c => PFetch.chunk c true)).merges =
        n + m + k + (chunks.map List.length).sum := by
  induction chunks with
  | nil => intro n m k; exact ⟨rfl, by simp [partGo]⟩
  | cons c cs ih =>
    intro n m k
    have hs := partSanitise_length c
    have hf : ((partSanitise c).1.filter (unresolvedPart g)).length ≤
        (partSanitise c).1.length := List.length_filter_le _ _
    rw [List.map_cons]
    by_cases he : (partSanitise c).1.isEmpty
    · have hlen0 : (partSanitise c).1.length = 0 := by
        simpa using congrArg List.length (List.isEmpty_iff.mp he)
      have hstep : partGo g n m k
            (PFetch.chunk c true :: List.map (fun c => PFetch.chunk c true) cs) =
          partGo g (n + (partSanitise c).2.length) m k
            (List.map (fun c => PFetch.chunk c true) cs) := by
        simp [partGo, he]
      rw [hstep]
      obtain ⟨h1, h2⟩ := ih (n + (partSanitise c).2.length) m k
      exact ⟨h1, by rw [h2, List.map_cons, List.sum_cons]; omega⟩
    · have hstep : partGo g n m k
            (PFetch.chunk c true :: List.map (fun c => PFetch.chunk c true) cs) =
          partGo g (n + (partSanitise c).2.length)
            (m + ((partSanitise c).1.filter (unresolvedPart g)).length)
            (k + ((partSanitise c).1.length -
              ((partSanitise c).1.filter (unresolvedPart g)).length))
            (List.map (fun c => PFetch.chunk c true) cs) := by
        simp [partGo, he]
      rw [hstep]
      obtain ⟨h1, h2⟩ := ih (n + (partSanitise c).2.length)
        (m + ((partSanitise c).1.filter (unresolvedPart g)).length)
        (k + ((partSanitise c).1.length -
          ((partSanitise c).1.filter (unresolvedPart g)).length))
      exact ⟨h1, by rw [h2, List.map_cons, List.sum_cons]; omega⟩

theorem fundsGo_conservation (g : Graph) (chunks : List (List FundsRow)) :
    ∀ n m k : Nat,
      (fundsGo g n m k (chunks.map fun c => FFetch.chunk c true)).success = true ∧
      (fundsGo g n m k (chunks.map fun c => FFetch.chunk c true)).nulls +
          (fundsGo g n m k (chunks.map fun c => FFetch.chunk c true)).missing +
          (fundsGo g n m k (chunks.map fun c => FFetch.chunk c true)).merges =
        n + m + k + (chunks.map List.length).sum := by
  induction chunks with
  | nil => intro n m k; exact ⟨rfl, by simp [fundsGo]⟩
  | cons c cs ih =>
    intro n m k
    have hs := fundsSanitise_length c
    have hf : ((fundsSanitise c).1.filter (unresolvedFunds g)).length ≤
        (fundsSanitise c).1.length := List.length_filter_le _ _
    rw [List.map_cons]
    by_cases he : (fundsSanitise c).1.isEmpty
    · have hlen0 : (fundsSanitise c).1.length = 0 := by
        simpa using congrArg List.length (List.isEmpty_iff.mp he)
      have hstep : fundsGo g n m k
            (FFetch.chunk c true :: List.map (fun c => FFetch.chunk c true) cs) =
          fundsGo g (n + (fundsSanitise c).2.length) m k
            (List.map (fun c => FFetch.chunk c true) cs) := by
        simp [fundsGo, he]
      rw [hstep]
      obtain ⟨h1, h2⟩ := ih (n + (fundsSanitise c).2.length) m k
      exact ⟨h1, by rw [h2, List.map_cons, List.sum_cons]; omega⟩
    · have hstep : fundsGo g n m k
            (FFetch.chunk c true :: List.map (fun c => FFetch.chunk c true) cs) =
          fundsGo g (n + (fundsSanitise c).2.length)
            (m + ((fundsSanitise c).1.filter (unresolvedFunds g)).length)
            (k + ((fundsSanitise c).1.length -
              ((fundsSanitise c).1.filter (unresolvedFunds g)).length))
            (List.map (fun c => FFetch.chunk c true) cs) := by
        simp [fundsGo, he]
      rw [hstep]
      obtain ⟨h1, h2⟩ := ih (n + (fundsSanitise c).2.length)
        (m + ((fundsSanitise c).1.filter (unresolvedFunds g)).length)
        (k + ((fundsSanitise c).1.length -
          ((fundsSanitise c).1.filter (unresolvedFunds g)).length))
      exact ⟨h1, by rw [h2, List.map_cons, List.sum_cons]; omega⟩

/-- Claim C2 (amended): for every loader run that drains the whole source
stream with every Neo4j batch write succeeding and no fetch error or
interrupt, the expected source row count obtained before streaming (the
total number of rows the cursor yields) equals the null-skip count plus the
unresolved-skip count plus the successful-merge count; stated for the
participation and funds loader loops.  The unamended claim fails on runs the
code still reports as completed: see the counterexample. -/
theorem run_conservation_error_free :
    (∀ (g : Graph) (chunks : List (List PartRow)),
      (partRun g (chunks.map fun c => PFetch.chunk c true)).success = true ∧
      (partRun g (chunks.map fun c => PFetch.chunk c true)).nulls +
          (partRun g (chunks.map fun c => PFetch.chunk c true)).missing +
          (partRun g (chunks.map fun c => PFetch.chunk c true)).merges =
        chunks.flatten.length) ∧
    (∀ (g : Graph) (chunks : List (List FundsRow)),
      (fundsRun g (chunks.map fun c => FFetch.chunk c true)).success = true ∧
      (fundsRun g (chunks.map fun c => FFetch.chunk c true)).nulls +
          (fundsRun g (chunks.map fun c => FFetch.chunk c true)).missing +
          (fundsRun g (chunks.map fun c => FFetch.chunk c true)).merges =
        chunks.flatten.length) := by
  constructor
  · intro g chunks
    obtain ⟨h1, h2⟩ := partGo_conservation g chunks 0 0 0
    exact ⟨h1, by rw [partRun, h2, List.length_flatten]; omega⟩
  · intro g chunks
    obtain ⟨h1, h2⟩ := fundsGo_conservation g chunks 0 0 0
    exact ⟨h1, by rw [fundsRun, h2, List.length_flatten]; omega⟩

/-- Counterexample to C2 as stated: a funds-loader run over a one-row source
table whose single Neo4j batch write fails completes and reports success,
yet counts the row neither as a null skip, nor as an unresolved skip, nor as
a successful merge, so expected (1) differs from the sum (0). -/
theorem run_conservation_counterexample :
    (fundsRun ⟨[], [], [], []⟩
        [FFetch.chunk
          [⟨some "A", some "B", some "ACTIVITY", some "ACTIVITY",
            some "USD", some "1"⟩] false]) =
      ⟨true, 0, 0, 0⟩ ∧
    ([(⟨some "A", some "B", some "ACTIVITY", some "ACTIVITY",
        some "USD", some "1"⟩ : FundsRow)].length = 1) ∧
    (1 : Nat) ≠ 0 + 0 + 0 := by
  refine ⟨by decide, rfl, by decide⟩

theorem fundsGo_success (g : Graph) (evs : List FFetch) :
    ∀ n m k : Nat, (fundsGo g n m k evs).success = true := by
  induction evs with
  | nil => intro n m k; rfl
  | cons e rest ih =>
    intro n m k
    cases e with
    | interrupt => rfl
    | exc => rfl
    | chunk rows ok =>
      by_cases he : (fundsSanitise rows).1.isEmpty
      · simp only [fundsGo, he, if_true]
        exact ih _ _ _
      · cases ok <;> simp only [fundsGo, he, if_false, if_true] <;>
          exact ih _ _ _

/-- Claim C10 (amended): the participation and financial loader mains exit
with code 0 on success and 1 on a failed load, an unexpected exception or a
KeyboardInterrupt; the funds loader, however, catches a KeyboardInterrupt or
any other exception raised during batch processing inside the load function,
reports success, and exits 0. -/
theorem loader_exit_codes :
    participationExitCode (MainOutcome.completed true) = 0 ∧
    participationExitCode (MainOutcome.completed false) = 1 ∧
    participationExitCode MainOutcome.interrupted = 1 ∧
    participationExitCode MainOutcome.raised = 1 ∧
    (∀ (g : Graph) (events : List FFetch),
      fundsExitCode (fundsRun g events).success = 0) := by
  refine ⟨rfl, rfl, rfl, rfl, ?_⟩
  intro g events
  rw [fundsRun, fundsGo_success g events 0 0 0]
  rfl

/-- Counterexample to C10 as stated: a KeyboardInterrupt raised while the
funds loader is processing batches leads to process exit code 0, not a
non-zero code. -/
theorem funds_interrupt_exit_zero :
    fundsExitCode (fundsRun ⟨[], [], [], []⟩ [FFetch.interrupt]).success = 0 :=
  rfl

/-- Claim C7 (amended): the skip-record classification reports BOTH when
both missing flags (defaulted to true when absent from the record) are true,
the source-specific label when only the source flag is true, the
target-specific label when only the target flag is true, and UNKNOWN exactly
when both flags are present and false; a record missing both flags is
therefore classified BOTH, not UNKNOWN. -/
theorem skip_reason_classification :
    ∀ s t : Option Bool,
      (classifyPartReason s t = "BOTH_MISSING" ↔
        s.getD true = true ∧ t.getD true = true) ∧
      (classifyPartReason s t = "SOURCE_ORG_MISSING" ↔
        s.getD true = true ∧ t.getD true = false) ∧
      (classifyPartReason s t = "TARGET_ACT_MISSING" ↔
        s.getD true = false ∧ t.getD true = true) ∧
      (classifyPartReason s t = "UNKNOWN" ↔
        s = some false ∧ t = some false) ∧
      (classifyFinReason "ORGANISATION" "ACTIVITY" s t = "BOTH_NODES_MISSING" ↔
        s.getD true = true ∧ t.getD true = true) ∧
      (classifyFinReason "ORGANISATION" "ACTIVITY" s t =
          "SOURCE_ORGANISATION_MISSING" ↔
        s.getD true = true ∧ t.getD true = false) ∧
      (classifyFinReason "ORGANISATION" "ACTIVITY" s t =
          "TARGET_ACTIVITY_MISSING" ↔
        s.getD true = false ∧ t.getD true = true) ∧
      (classifyFinReason "ORGANISATION" "ACTIVITY" s t = "UNKNOWN" ↔
        s = some false ∧ t = some false) := by
  decide

/-- Counterexample to C7 as stated: an executor response with both boolean
flags absent is classified BOTH_MISSING (the flags default to true), not
UNKNOWN. -/
theorem absent_flags_not_unknown :
    classifyPartReason none none = "BOTH_MISSING" ∧
    classifyPartReason none none ≠ "UNKNOWN" :=
  ⟨rfl, by decide⟩

theorem partSanitise_null_logged (rows : List PartRow) :
    ∀ r ∈ rows, (r.organisation_id = none ∨ r.activity_id = none) →
      (dispPy r.organisation_id, dispPy r.activity_id, "NULL_ID") ∈
        (partSanitise rows).2 := by
  induction rows with
  | nil => intro r hr; cases hr
  | cons a rs ih =>
    intro r hr hnull
    rcases List.mem_cons.mp hr with h | h
    · subst h
      cases ho : r.organisation_id <;> cases ha : r.activity_id <;>
        simp_all [partSanitise]
    · have hmem := ih r h hnull
      cases ho : a.organisation_id <;> cases ha : a.activity_id <;>
        simp [partSanitise, ho, ha, hmem]

theorem partSanitise_batch_nonnull (rows : List PartRow) :
    ∀ b ∈ (partSanitise rows).1, ∃ r ∈ rows,
      r.organisation_id = some b.organisation_id ∧
      r.activity_id = some b.activity_id := by
  induction rows with
  | nil => intro b hb; cases hb
  | cons a rs ih =>
    intro b hb
    cases ho : a.organisation_id with
    | none =>
      cases ha : a.activity_id <;> simp only [partSanitise, ho, ha] at hb <;>
        (obtain ⟨r, hr, h1, h2⟩ := ih b hb
         exact ⟨r, List.mem_cons_of_mem a hr, h1, h2⟩)
    | some o =>
      cases ha : a.activity_id with
      | none =>
        simp only [partSanitise, ho, ha] at hb
        obtain ⟨r, hr, h1, h2⟩ := ih b hb
        exact ⟨r, List.mem_cons_of_mem a hr, h1, h2⟩
      | some v =>
        simp only [partSanitise, ho, ha] at hb
        rcases List.mem_cons.mp hb with h | h
        · subst h
          exact ⟨a, List.mem_cons_self a rs, by simp [ho], by simp [ha]⟩
        · obtain ⟨r, hr, h1, h2⟩ := ih b h
          exact ⟨r, List.mem_cons_of_mem a hr, h1, h2⟩

theorem finSanitise_batch_truthy (rows : List FinRow) :
    ∀ b ∈ (finSanitise rows).1,
      b.source_node_id ≠ "" ∧ b.target_node_id ≠ "" := by
  induction rows with
  | nil => intro b hb; cases hb
  | cons a rs ih =>
    intro b hb
    by_cases hc : (truthy a.source_node_id && truthy a.target_node_id &&
        truthy a.source_node_type && truthy a.target_node_type) = true
    · simp only [finSanitise, hc, if_true] at hb
      rcases List.mem_cons.mp hb with h | h
      · subst h
        have hsrc : truthy a.source_node_id = true := by
          simp only [Bool.and_eq_true] at hc
          exact hc.1.1.1
        have htgt : truthy a.target_node_id = true := by
          simp only [Bool.and_eq_true] at hc
          exact hc.1.1.2
        constructor
        · cases hv : a.source_node_id with
          | none => rw [hv] at hsrc; cases hsrc
          | some s =>
            rw [hv] at hsrc
            simp only [truthy, Bool.not_eq_eq_eq_not, Bool.not_true,
              beq_eq_false_iff_ne, ne_eq] at hsrc
            simpa [hv] using hsrc
        · cases hv : a.target_node_id with
          | none => rw [hv] at htgt; cases htgt
          | some s =>
            rw [hv] at htgt
            simp only [truthy, Bool.not_eq_eq_eq_not, Bool.not_true,
              beq_eq_false_iff_ne, ne_eq] at htgt
            simpa [hv] using htgt
      · exact ih b h
    · simp only [finSanitise, hc, if_false] at hb
      exact ih b hb

theorem finSanitise_null_logged (rows : List FinRow) :
    ∀ r ∈ rows,
      (truthy r.source_node_id && truthy r.target_node_id &&
        truthy r.source_node_type && truthy r.target_node_type) = false →
      (dispFin r.source_node_id, dispFin r.target_node_id,
        dispFin r.source_node_type, dispFin r.target_node_type,
        "NULL_ID_OR_TYPE") ∈ (finSanitise rows).2 := by
  induction rows with
  | nil => intro r hr; cases hr
  | cons a rs ih =>
    intro r hr hfalsy
    rcases List.mem_cons.mp hr with h | h
    · subst h
      simp [finSanitise, hfalsy]
    · have hmem := ih r h hfalsy
      by_cases hc : (truthy a.source_node_id && truthy a.target_node_id &&
          truthy a.source_node_type && truthy a.target_node_type) = true <;>
        simp [finSanitise, hc, hmem]

theorem partRun_counts_nulls_before_backend (g : Graph) (rows : List PartRow) :
    (partRun g [PFetch.chunk rows false]).nulls =
      (partSanitise rows).2.length := by
  by_cases he : (partSanitise rows).1.isEmpty <;>
    simp [partRun, partGo, he]

/-- Claim C4 (amended): a participation row with a null endpoint identifier
never reaches the batch submitted to Neo4j and a NULL_ID detail line is
recorded for it during batch assembly, before the Neo4j call for that batch
(the null count is accumulated even when the batch write fails); every row
the participation loader submits carries identifiers that were non-null in
the source, so the resolver never receives a null key; the financial loader
additionally rejects empty strings, logging NULL_ID_OR_TYPE, and every
identifier it submits is non-empty.  The unamended claim also promised
exclusion of empty identifiers by every loader: the participation loader
submits them (see the counterexample). -/
theorem null_rows_never_reach_backend :
    (∀ (rows : List PartRow), ∀ r ∈ rows,
      (r.organisation_id = none ∨ r.activity_id = none) →
        (dispPy r.organisation_id, dispPy r.activity_id, "NULL_ID") ∈
          (partSanitise rows).2) ∧
    (∀ (rows : List PartRow), ∀ b ∈ (partSanitise rows).1, ∃ r ∈ rows,
        r.organisation_id = some b.organisation_id ∧
        r.activity_id = some b.activity_id) ∧
    (∀ (g : Graph) (rows : List PartRow),
      (partRun g [PFetch.chunk rows false]).nulls =
        (partSanitise rows).2.length) ∧
    (∀ (rows : List FinRow), ∀ r ∈ rows,
      (truthy r.source_node_id && truthy r.target_node_id &&
        truthy r.source_node_type && truthy r.target_node_type) = false →
        (dispFin r.source_node_id, dispFin r.target_node_id,
          dispFin r.source_node_type, dispFin r.target_node_type,
          "NULL_ID_OR_TYPE") ∈ (finSanitise rows).2) ∧
    (∀ (rows : List FinRow), ∀ b ∈ (finSanitise rows).1,
        b.source_node_id ≠ "" ∧ b.target_node_id ≠ "") :=
  ⟨partSanitise_null_logged, partSanitise_batch_nonnull,
    partRun_counts_nulls_before_backend, finSanitise_null_logged,
    finSanitise_batch_truthy⟩

/-- Witness for C4 on concrete rows: a participation row with a null
organisation_id yields a NULL_ID line and an empty batch, and a financial
row with an empty target identifier yields a NULL_ID_OR_TYPE line. -/
theorem null_rows_never_reach_backend_witness :
    ("None", "A1", "NULL_ID") ∈
      (partSanitise [⟨none, some "A1", none, none⟩]).2 ∧
    ("S1", "NULL", "ACTIVITY", "ACTIVITY", "NULL_ID_OR_TYPE") ∈
      (finSanitise [⟨some "S1", some "", some "ACTIVITY", some "ACTIVITY",
        none, none, none, none⟩]).2 := by
  refine ⟨?_, ?_⟩
  · have h := null_rows_never_reach_backend.1
      [⟨none, some "A1", none, none⟩] ⟨none, some "A1", none, none⟩
      (by decide) (Or.inl rfl)
    exact h
  · have h := null_rows_never_reach_backend.2.2.2.1
      [⟨some "S1", some "", some "ACTIVITY", some "ACTIVITY",
        none, none, none, none⟩]
      ⟨some "S1", some "", some "ACTIVITY", some "ACTIVITY",
        none, none, none, none⟩
      (by decide) (by decide)
    exact h

/-- Counterexample to C4 as stated: a participation row whose source
identifier is the empty string is not excluded: it is placed in the batch
submitted to the graph store, no skip line is recorded, and the resolver is
invoked with the empty key. -/
theorem empty_id_reaches_backend :
    (partSanitise [⟨some "", some "ACT-1", none, none⟩]).1 =
      [⟨"", "ACT-1", none, none⟩] ∧
    (partSanitise [⟨some "", some "ACT-1", none, none⟩]).2 = [] :=
  ⟨rfl, rfl⟩

theorem phantomGo_success (bs : Nat) (chunks : List (List PhRow)) :
    ∀ (grouped : PhGroup) (graph : List (String × PhVal)) (skips : Nat),
      (phantomGo bs chunks grouped graph skips).success = true := by
  induction chunks with
  | nil => intro grouped graph skips; rfl
  | cons chunk rest ih =>
    intro grouped graph skips
    by_cases hc : chunk.isEmpty
    · simp [phantomGo, hc]
    · by_cases hb : bs ≤ (phChunkFold grouped skips chunk).1.length <;>
        simp [phantomGo, hc, hb] <;> apply ih

theorem phantomGo_flush_sizes (bs : Nat) (chunks : List (List PhRow)) :
    ∀ (grouped : PhGroup) (graph : List (String × PhVal)) (skips : Nat),
      ∀ b ∈ (phantomGo bs chunks grouped graph skips).flushes, bs ≤ b.length := by
  induction chunks with
  | nil => intro grouped graph skips b hb; cases hb
  | cons chunk rest ih =>
    intro grouped graph skips b hb
    by_cases hc : chunk.isEmpty
    · simp [phantomGo, hc] at hb
    · by_cases hbs : bs ≤ (phChunkFold grouped skips chunk).1.length
      · simp only [phantomGo, hc, hbs, if_true, if_false] at hb
        rcases List.mem_cons.mp hb with h | h
        · subst h
          rw [flushItems, List.length_map]
          exact hbs
        · exact ih _ _ _ b h
      · simp only [phantomGo, hc, hbs, if_true, if_false] at hb
        exact ih _ _ _ b hb

theorem hasKeyB_phMergeBatch (items : List (String × PhVal)) :
    ∀ (graph : List (String × PhVal)) (id : String),
      hasKeyB graph id = false → (∀ it ∈ items, ¬(it.1 = id)) →
      hasKeyB (phMergeBatch graph items) id = false := by
  induction items with
  | nil => intro graph id h _; exact h
  | cons it its ih =>
    intro graph id h h2
    have hstep : phMergeBatch graph (it :: its) =
        phMergeBatch (mergeBy graph it.1 it.2) its := rfl
    rw [hstep]
    apply ih
    · rw [hasKeyB_mergeBy, h]
      have : ¬(id = it.1) := fun hh => h2 it (List.mem_cons_self it its) hh.symm
      simp [this]
    · exact fun x hx => h2 x (List.mem_cons_of_mem it hx)

theorem phantomGo_unflushed_absent (bs : Nat) (chunks : List (List PhRow)) :
    ∀ (grouped : PhGroup) (graph : List (String × PhVal)) (skips : Nat)
      (id : String),
      hasKeyB graph id = false →
      (∀ b ∈ (phantomGo bs chunks grouped graph skips).flushes,
        ∀ p ∈ b, ¬(p.1 = id)) →
      hasKeyB (phantomGo bs chunks grouped graph skips).graph id = false := by
  induction chunks with
  | nil => intro grouped graph skips id h _; exact h
  | cons chunk rest ih =>
    intro grouped graph skips id h h2
    by_cases hc : chunk.isEmpty
    · simpa [phantomGo, hc] using h
    · by_cases hbs : bs ≤ (phChunkFold grouped skips chunk).1.length
      · have hflushes :
            (phantomGo bs (chunk :: rest) grouped graph skips).flushes =
              flushItems (phChunkFold grouped skips chunk).1 ::
                (phantomGo bs rest []
                  (phMergeBatch graph
                    (flushItems (phChunkFold grouped skips chunk).1))
                  (phChunkFold grouped skips chunk).2).flushes := by
          simp [phantomGo, hc, hbs]
        have hgraph :
            (phantomGo bs (chunk :: rest) grouped graph skips).graph =
              (phantomGo bs rest []
                (phMergeBatch graph
                  (flushItems (phChunkFold grouped skips chunk).1))
                (phChunkFold grouped skips chunk).2).graph := by
          simp [phantomGo, hc, hbs]
        rw [hflushes] at h2
        rw [hgraph]
        apply ih
        · apply hasKeyB_phMergeBatch _ _ _ h
          exact h2 (flushItems (phChunkFold grouped skips chunk).1)
            (List.mem_cons_self _ _)
        · exact fun b hb p hp => h2 b (List.mem_cons_of_mem _ hb) p hp
      · have hflushes :
            (phantomGo bs (chunk :: rest) grouped graph skips).flushes =
              (phantomGo bs rest (phChunkFold grouped skips chunk).1 graph
                (phChunkFold grouped skips chunk).2).flushes := by
          simp [phantomGo, hc, hbs]
        have hgraph :
            (phantomGo bs (chunk :: rest) grouped graph skips).graph =
              (phantomGo bs rest (phChunkFold grouped skips chunk).1 graph
                (phChunkFold grouped skips chunk).2).graph := by
          simp [phantomGo, hc, hbs]
        rw [hflushes] at h2
        rw [hgraph]
        exact ih _ _ _ _ h h2

/-- Claim C8 (amended): in load_phantom_activity_nodes, grouped entries are
flushed to the graph store only when at least batch_size distinct
identifiers have accumulated (every flushed batch has at least batch_size
items); the entries still grouped when the source cursor is exhausted are
never submitted, because the loop breaks on the empty fetch before the flush
condition (whose second disjunct is therefore unreachable), so an identifier
absent from the store at the start and from every flushed batch is absent at
the end even if it sits in the residual grouping; and the function still
returns True.  As stated, the claim said the residual identifiers are never
merged at all, which fails when an identifier straddles a flush boundary:
see the counterexample. -/
theorem phantom_tail_never_flushed (bs : Nat) (g0 : List (String × PhVal))
    (chunks : List (List PhRow)) :
    (phantomRun bs g0 chunks).success = true ∧
    (∀ b ∈ (phantomRun bs g0 chunks).flushes, bs ≤ b.length) ∧
    (∀ id : String, hasKeyB g0 id = false →
      (∀ b ∈ (phantomRun bs g0 chunks).flushes, ∀ p ∈ b, ¬(p.1 = id)) →
      hasKeyB (phantomRun bs g0 chunks).graph id = false) :=
  ⟨phantomGo_success bs chunks [] g0 0,
    phantomGo_flush_sizes bs chunks [] g0 0,
    fun id h h2 => phantomGo_unflushed_absent bs chunks [] g0 0 id h h2⟩

/-- Witness for C8: a run with batch size 2 over a single one-row fetch
leaves one identifier grouped but unflushed, reports success, and the graph
never receives the identifier. -/
theorem phantom_tail_never_flushed_witness :
    (phantomRun 2 [] [[⟨some "P", some "c", some "A"⟩]]).residual.length = 1 ∧
    (phantomRun 2 [] [[⟨some "P", some "c", some "A"⟩]]).success = true ∧
    hasKeyB (phantomRun 2 [] [[⟨some "P", some "c", some "A"⟩]]).graph "P" =
      false := by
  refine ⟨by decide,
    (phantom_tail_never_flushed 2 [] [[⟨some "P", some "c", some "A"⟩]]).1,
    (phantom_tail_never_flushed 2 []
      [[⟨some "P", some "c", some "A"⟩]]).2.2 "P" (by decide) (by decide)⟩

/-- Counterexample to C8 as stated: with batch size 2, rows for identifiers
X and Y arrive in one fetch (flushing both), then another row for Y arrives
alone; the cursor is then exhausted with exactly one distinct identifier (Y)
remaining in grouped_activities, yet Y was already merged into the graph by
the earlier flush, so the residual identifiers are not in general never
merged. -/
theorem phantom_residual_id_already_merged :
    (phantomRun 2 []
      [[⟨some "X", some "c", some "A"⟩, ⟨some "Y", some "c", some "B"⟩],
        [⟨some "Y", some "c", some "C"⟩]]).residual.length = 1 ∧
    (phantomRun 2 []
      [[⟨some "X", some "c", some "A"⟩, ⟨some "Y", some "c", some "B"⟩],
        [⟨some "Y", some "c", some "C"⟩]]).residual.map Prod.fst = ["Y"] ∧
    hasKeyB (phantomRun 2 []
      [[⟨some "X", some "c", some "A"⟩, ⟨some "Y", some "c", some "B"⟩],
        [⟨some "Y", some "c", some "C"⟩]]).graph "Y" = true ∧
    (phantomRun 2 []
      [[⟨some "X", some "c", some "A"⟩, ⟨some "Y", some "c", some "B"⟩],
        [⟨some "Y", some "c", some "C"⟩]]).success = true := by
  decide

/-- Claim C3 is the intended behaviour and the code violates it: on the
specification scenario itself (three rows for XI-IATI-PHANTOM-1 with source
activity ids A, B, C split over two fetches, batch size 2), the loader
finishes reporting success, the three contributions are collected in the
grouping state, but the flush never happens, so no PhantomActivity node for
the identifier is ever merged: the graph ends without the node instead of
with source_activity_ids = [A, B, C] and reference_count = 3. -/
theorem phantom_scenario_never_merged :
    (phantomRun 2 []
      [[⟨some "XI-IATI-PHANTOM-1", some "c", some "A"⟩,
        ⟨some "XI-IATI-PHANTOM-1", some "c", some "B"⟩],
        [⟨some "XI-IATI-PHANTOM-1", some "c", some "C"⟩]]).success = true ∧
    hasKeyB (phantomRun 2 []
      [[⟨some "XI-IATI-PHANTOM-1", some "c", some "A"⟩,
        ⟨some "XI-IATI-PHANTOM-1", some "c", some "B"⟩],
        [⟨some "XI-IATI-PHANTOM-1", some "c", some "C"⟩]]).graph
      "XI-IATI-PHANTOM-1" = false ∧
    (phantomRun 2 []
      [[⟨some "XI-IATI-PHANTOM-1", some "c", some "A"⟩,
        ⟨some "XI-IATI-PHANTOM-1", some "c", some "B"⟩],
        [⟨some "XI-IATI-PHANTOM-1", some "c", some "C"⟩]]).residual =
      [("XI-IATI-PHANTOM-1", (["c"], ["A", "B", "C"]))] := by
  decide

theorem seqScripts_eq : seqScripts = nodeScripts ++ edgeScripts := rfl

theorem runSeq_mem_fst (env : String → Bool) :
    ∀ l : List String, ∀ x ∈ (runSeq env l).1, env x = true ∧ x ∈ l := by
  intro l
  induction l with
  | nil => intro x hx; cases hx
  | cons s rest ih =>
    intro x hx
    by_cases hs : env s = true
    · simp only [runSeq, hs, if_true] at hx
      rcases List.mem_cons.mp hx with h | h
      · subst h; exact ⟨hs, List.mem_cons_self x rest⟩
      · obtain ⟨h1, h2⟩ := ih x h
        exact ⟨h1, List.mem_cons_of_mem s h2⟩
    · simp only [runSeq, hs, if_false] at hx
      cases hx

theorem runSeq_snd_fail (env : String → Bool) :
    ∀ (l : List String) (f : String), (runSeq env l).2 = some f →
      env f = false ∧ ∃ l2, (runSeq env l).1 ++ f :: l2 = l := by
  intro l
  induction l with
  | nil => intro f hf; cases hf
  | cons s rest ih =>
    intro f hf
    by_cases hs : env s = true
    · simp only [runSeq, hs, if_true] at hf ⊢
      obtain ⟨h1, l2, h2⟩ := ih f hf
      exact ⟨h1, l2, by rw [List.cons_append, h2]⟩
    · simp only [runSeq, hs, if_false] at hf ⊢
      have hfs : f = s := by
        injection hf with h
        exact h.symm
      subst hfs
      exact ⟨Bool.not_eq_true _ ▸ (by simpa using hs), rest, rfl⟩

theorem runSeq_precedes (env : String → Bool) (l2 : List String) (e : String) :
    ∀ l1 : List String, e ∉ l1 →
      (e ∈ (runSeq env (l1 ++ l2)).1 ∨ (runSeq env (l1 ++ l2)).2 = some e) →
      ∀ x ∈ l1, env x = true ∧ x ∈ (runSeq env (l1 ++ l2)).1 := by
  intro l1
  induction l1 with
  | nil => intro _ _ x hx; cases hx
  | cons s rest ih =>
    intro he hstart x hx
    by_cases hs : env s = true
    · have hfst : (runSeq env ((s :: rest) ++ l2)).1 =
          s :: (runSeq env (rest ++ l2)).1 := by
        simp [runSeq, hs]
      have hsnd : (runSeq env ((s :: rest) ++ l2)).2 =
          (runSeq env (rest ++ l2)).2 := by
        simp [runSeq, hs]
      have he2 : e ∉ rest := fun h => he (List.mem_cons_of_mem s h)
      have hes : e ≠ s := fun h => he (h ▸ List.mem_cons_self s rest)
      have hstart2 : e ∈ (runSeq env (rest ++ l2)).1 ∨
          (runSeq env (rest ++ l2)).2 = some e := by
        rcases hstart with h | h
        · rw [hfst] at h
          rcases List.mem_cons.mp h with h | h
          · exact absurd h hes
          · exact Or.inl h
        · rw [hsnd] at h
          exact Or.inr h
      rcases List.mem_cons.mp hx with hxx | hxx
      · subst hxx
        exact ⟨hs, by rw [hfst]; exact List.mem_cons_self x _⟩
      · obtain ⟨h1, h2⟩ := ih he2 hstart2 x hxx
        exact ⟨h1, by rw [hfst]; exact List.mem_cons_of_mem s h2⟩
    · have hrun : runSeq env ((s :: rest) ++ l2) = ([], some s) := by
        simp [runSeq, hs]
      rcases hstart with h | h
      · rw [hrun] at h; cases h
      · rw [hrun] at h
        have : s = e := by injection h
        exact absurd (this ▸ List.mem_cons_self s rest) he

/-- Claim C9: the orchestrator runs the loader scripts in a fixed sequence
with all four node loaders listed before all four edge loaders and the
published loader of each entity family before its phantom loader; whenever
an edge loader is started (it completed or is the failing script), every
node loader already completed successfully; and when any script fails the
process exits with code 1, every script that ran before it succeeded, and
the scripts after it are never started (the completed scripts plus the
failing one form an initial segment of the sequence). -/
theorem orchestrator_sequencing (env : String → Bool) :
    (∀ e ∈ edgeScripts,
      (e ∈ (runSeq env seqScripts).1 ∨ (runSeq env seqScripts).2 = some e) →
      ∀ x ∈ nodeScripts, env x = true ∧ x ∈ (runSeq env seqScripts).1) ∧
    (("load_phantom_activities.py" ∈ (runSeq env seqScripts).1 ∨
        (runSeq env seqScripts).2 = some "load_phantom_activities.py") →
      env "load_published_activities.py" = true) ∧
    (("load_phantom_organisations.py" ∈ (runSeq env seqScripts).1 ∨
        (runSeq env seqScripts).2 = some "load_phantom_organisations.py") →
      env "load_published_organisations.py" = true) ∧
    (∀ f : String, (runSeq env seqScripts).2 = some f →
      seqExit env = 1 ∧ env f = false ∧
      (∀ x ∈ (runSeq env seqScripts).1, env x = true) ∧
      ∃ rest, (runSeq env seqScripts).1 ++ f :: rest = seqScripts) := by
  refine ⟨?_, ?_, ?_, ?_⟩
  · intro e hedge hstart x hx
    have hne : e ∉ nodeScripts := by
      simp only [edgeScripts, List.mem_cons, List.mem_singleton,
        List.not_mem_nil, or_false] at hedge
      rcases hedge with rfl | rfl | rfl | rfl <;> decide
    rw [seqScripts_eq] at hstart ⊢
    exact runSeq_precedes env edgeScripts e nodeScripts hne hstart x hx
  · intro hstart
    have hsplit : seqScripts =
        ["load_published_activities.py", "load_published_organisations.py"] ++
          ("load_phantom_activities.py" :: "load_phantom_organisations.py" ::
            edgeScripts) := rfl
    rw [hsplit] at hstart
    have h := runSeq_precedes env
      ("load_phantom_activities.py" :: "load_phantom_organisations.py" ::
        edgeScripts)
      "load_phantom_activities.py"
      ["load_published_activities.py", "load_published_organisations.py"]
      (by decide) hstart "load_published_activities.py" (by decide)
    exact h.1
  · intro hstart
    have hsplit : seqScripts =
        ["load_published_activities.py", "load_published_organisations.py",
          "load_phantom_activities.py"] ++
          ("load_phantom_organisations.py" :: edgeScripts) := rfl
    rw [hsplit] at hstart
    have h := runSeq_precedes env
      ("load_phantom_organisations.py" :: edgeScripts)
      "load_phantom_organisations.py"
      ["load_published_activities.py", "load_published_organisations.py",
        "load_phantom_activities.py"]
      (by decide) hstart "load_published_organisations.py" (by decide)
    exact h.1
  · intro f hf
    obtain ⟨h1, l2, h2⟩ := runSeq_snd_fail env seqScripts f hf
    refine ⟨by simp [seqExit, hf], h1, ?_, l2, h2⟩
    exact fun x hx => (runSeq_mem_fst env seqScripts x hx).1

/-- Witness for C9 at the all-success environment: the funds edge loader is
started, and the theorem yields that the published-activity node loader ran
successfully before it. -/
theorem orchestrator_sequencing_witness :
    (fun _ => true : String → Bool) "load_published_activities.py" = true ∧
    "load_published_activities.py" ∈
      (runSeq (fun _ => true) seqScripts).1 := by
  have h := (orchestrator_sequencing (fun _ => true)).1
    "load_funds_edges.py" (by decide) (Or.inl (by decide))
    "load_published_activities.py" (by decide)
  exact h

end IatiGraph
